import Mathlib

/-!
Shallow embedding of the PR-context resolution and comment-reconciliation
core of trivy-pr-decorator (src/src/commenter.js and
src/src/context-resolver.js), with theorems settling the frozen claims.

JavaScript conventions modelled explicitly:
  - an optional or possibly-missing value is an `Option`;
  - JS truthiness of numbers (`0`, `null`, `undefined` are falsy) is
    `truthyNum`; of strings (`""`, `null`, `undefined` are falsy) is
    `truthyStr`;
  - `a || b` on numbers is `jsNumOrElse a b`; `x || null` is `jsNumOrNull x`;
  - `String.prototype.includes` is `jsIncludes`;
  - the remote API (octokit) is an injected function; a call that can fail
    returns `Except`; the trace of API calls a run issues is a `List ApiCall`.
-/

namespace Trivy

/-- JS truthiness of a possibly-absent number: null/undefined and 0 are falsy. -/
def truthyNum : Option Int → Bool
  | none => false
  | some n => n != 0

/-- JS truthiness of a possibly-absent string: null/undefined and "" are falsy. -/
def truthyStr : Option String → Bool
  | none => false
  | some s => s != ""

/-- JS `a || b` on possibly-absent numbers. -/
def jsNumOrElse (a b : Option Int) : Option Int :=
  if truthyNum a then a else b

/-- JS `x || null` on a possibly-absent number. -/
def jsNumOrNull (a : Option Int) : Option Int :=
  if truthyNum a then a else none

/-- Whether `pat` occurs at the start of `hay` (character lists). -/
def startsWithChars : List Char → List Char → Bool
  | _, [] => true
  | [], _ :: _ => false
  | a :: as, b :: bs => a == b && startsWithChars as bs

/-- Whether `pat` occurs somewhere inside `hay` (character lists). -/
def hasSubChars (pat : List Char) : List Char → Bool
  | [] => pat.isEmpty
  | a :: rest => startsWithChars (a :: rest) pat || hasSubChars pat rest

/-- JS `s.includes(pat)`: exact, case-sensitive substring containment. -/
def jsIncludes (s pat : String) : Bool :=
  hasSubChars pat.data s.data

/-- The author descriptor of a forge comment (`comment.user`). -/
structure User where
  type : String
deriving DecidableEq

/-- A PR comment as the commenter reads it (`id`, `user.type`, `body`). -/
structure Comment where
  id : Int
  user : User
  body : String
deriving DecidableEq

/-- The fixed scan-header marker (`this.scanHeader` in commenter.js). -/
def scanHeader : String := "🔒 Trivy Security Scan Report"

/-- The filter of `findExistingComment`: author type is the bot marker and the
body contains the scan header. -/
def isBotScanComment (c : Comment) : Bool :=
  c.user.type == "Bot" && jsIncludes c.body scanHeader

/-- `PRCommenter.findExistingComment`, given the list the forge returned:
first comment matching the bot filter, or none. -/
def findExistingComment (comments : List Comment) : Option Comment :=
  comments.find? isBotScanComment

/-- One remote API call the commenter can issue. -/
inductive ApiCall where
  | listComments : Int → ApiCall
  | createComment : Int → String → ApiCall
  | updateComment : Int → String → ApiCall
deriving DecidableEq

/-- Whether an API call mutates remote state (create or update, not list). -/
def isMutatingCall : ApiCall → Bool
  | ApiCall.listComments _ => false
  | ApiCall.createComment _ _ => true
  | ApiCall.updateComment _ _ => true

/-- Number of network-mutating calls in a trace. -/
def mutCount (trace : List ApiCall) : Nat :=
  (trace.filter isMutatingCall).length

/-- The ambient payload `pull_request` field (`event.pull_request`). -/
structure PRRef where
  number : Option Int
deriving DecidableEq

/-- The payload `workflow_run` field, carrying its `pull_requests` array. -/
structure WFRun where
  pull_requests : Option (List PRRef)
deriving DecidableEq

/-- The payload `head_commit` field. -/
structure HeadCommit where
  id : Option String
deriving DecidableEq

/-- An event payload, restricted to the fields the core reads. -/
structure Event where
  pull_request : Option PRRef
  workflow_run : Option WFRun
  head_commit : Option HeadCommit
  after : Option String
deriving DecidableEq

/-- A pull request as returned by the commit-association lookup. -/
structure PR where
  number : Int
  state : String
  title : String
deriving DecidableEq

/-- The live Actions context the resolver reads (`payload`, `eventName`, `sha`). -/
structure LiveCtx where
  payload : Event
  eventName : Option String
  sha : Option String
deriving DecidableEq

/-- The tuple `resolvePRContext` returns. -/
structure ResolvedPRContext where
  prNumber : Option Int
  isWorkflowRun : Bool
  eventName : String
deriving DecidableEq

/-- `PRCommenter.postOrUpdateComment`. `listComments` is the (successful)
list-comments capability; `payload` the live context payload; the result is the
returned boolean together with the trace of API calls issued. -/
def postOrUpdateComment (listComments : Int → List Comment) (payload : Event)
    (body : String) (prNumber : Option Int) : Bool × List ApiCall :=
  match jsNumOrElse prNumber (payload.pull_request.bind PRRef.number) with
  | none => (false, [])
  | some p =>
    if p = 0 then (false, [])
    else
      match findExistingComment (listComments p) with
      | some c => (true, [ApiCall.listComments p, ApiCall.updateComment c.id body])
      | none => (true, [ApiCall.listComments p, ApiCall.createComment p body])

/-- `ContextResolver.extractCommitSHA`: explicit input, then
`payload.head_commit?.id`, then `payload.after`, then `context.sha`. -/
def extractCommitSHA (shaInput : Option String) (payload : Event)
    (ctxSha : Option String) : Option String :=
  if truthyStr shaInput then shaInput
  else if truthyStr (payload.head_commit.bind HeadCommit.id) then
    payload.head_commit.bind HeadCommit.id
  else if truthyStr payload.after then payload.after
  else if truthyStr ctxSha then ctxSha
  else none

/-- `ContextResolver.extractPRNumber`: event-type dispatch over the payload. -/
def extractPRNumber (event : Option Event) (eventName : String) : Option Int :=
  match event with
  | none => none
  | some ev =>
    if eventName = "pull_request" ∨ eventName = "pull_request_target" then
      jsNumOrNull (ev.pull_request.bind PRRef.number)
    else if eventName = "workflow_run" then
      match ev.workflow_run.bind WFRun.pull_requests with
      | some (p :: _) => p.number
      | some [] => none
      | none => none
    else if eventName = "workflow_call" then
      jsNumOrNull (ev.pull_request.bind PRRef.number)
    else if eventName = "push" then
      jsNumOrNull (ev.pull_request.bind PRRef.number)
    else
      match ev.pull_request with
      | some pr => jsNumOrNull pr.number
      | none =>
        match ev.workflow_run.bind WFRun.pull_requests with
        | some (p :: _) => p.number
        | some [] => none
        | none => none

/-- `ContextResolver.findPRByCommit`: `octokit` is the optional lookup
capability; a transport failure is an `Except.error`. -/
def findPRByCommit (octokit : Option (String → Except String (List PR)))
    (sha : String) : Option Int :=
  match octokit with
  | none => none
  | some api =>
    match api sha with
    | Except.error _ => none
    | Except.ok prs =>
      match prs with
      | [] => none
      | p :: rest =>
        some (((p :: rest).find? (fun q => q.state == "open")).getD p).number

/-- The event-name resolution of `resolvePRContext`:
`eventName || this.context.eventName || ''`. -/
def resolveEventName (eventName ctxEventName : Option String) : String :=
  if truthyStr eventName then eventName.getD ""
  else if truthyStr ctxEventName then ctxEventName.getD ""
  else ""

/-- `ContextResolver.resolvePRContext`. `fileReader` is the event-file
reader (read + JSON parse; a parse of the literal `null` yields `none`);
`api` the optional commit-association lookup capability. -/
def resolvePRContext (fileReader : String → Except String (Option Event))
    (api : Option (String → Except String (List PR))) (ctx : LiveCtx)
    (eventFilePath eventName shaInput : Option String) : ResolvedPRContext :=
  let isWorkflowRun := ctx.payload.workflow_run.isSome
  let resolvedEventName := resolveEventName eventName ctx.eventName
  let prNumber :=
    if truthyStr eventFilePath then
      match fileReader (eventFilePath.getD "") with
      | Except.error _ => none
      | Except.ok event => extractPRNumber event resolvedEventName
    else
      let pr1 := extractPRNumber (some ctx.payload) resolvedEventName
      let pr2 :=
        if truthyNum pr1 = false ∧ resolvedEventName = "workflow_call" then
          if truthyNum (ctx.payload.pull_request.bind PRRef.number) then
            ctx.payload.pull_request.bind PRRef.number
          else pr1
        else pr1
      if truthyNum pr2 = false ∧
          (resolvedEventName = "push" ∨ resolvedEventName = "workflow_call") then
        match extractCommitSHA shaInput ctx.payload ctx.sha with
        | some sha => if sha = "" then pr2 else findPRByCommit api sha
        | none => pr2
      else pr2
  { prNumber := prNumber, isWorkflowRun := isWorkflowRun,
    eventName := resolvedEventName }

/-- Spec reading of the SHA precedence rule (section 4.1 of the spec): the
first non-empty value of the candidate locations, empty string treated exactly
like missing. Written from the spec's words, for comparison with
`extractCommitSHA`. -/
def firstNonEmptySpec : List (Option String) → Option String
  | [] => none
  | none :: rest => firstNonEmptySpec rest
  | some s :: rest => if s = "" then firstNonEmptySpec rest else some s

/-- List.find? returns some x exactly when the list splits as a prefix of
non-matching elements, then x (which matches), then a remainder. -/
theorem find?_first_characterization {α : Type} (p : α → Bool) :
    ∀ (l : List α) (x : α),
      l.find? p = some x ↔
        ∃ l1 l2, l = l1 ++ x :: l2 ∧ p x = true ∧ ∀ y ∈ l1, p y = false := by
  intro l
  induction l with
  | nil =>
    intro x
    constructor
    · intro h
      simp [List.find?] at h
    · rintro ⟨l1, l2, heq, hx, hall⟩
      cases l1 <;> simp at heq
  | cons a t ih =>
    intro x
    cases hpa : p a with
    | true =>
      rw [List.find?_cons_of_pos _ hpa]
      constructor
      · intro h
        injection h with h1
        subst h1
        exact ⟨[], t, rfl, hpa, by simp⟩
      · rintro ⟨l1, l2, heq, hx, hall⟩
        cases l1 with
        | nil =>
          injection heq with h1 h2
          subst h1
          rfl
        | cons b bs =>
          injection heq with h1 h2
          subst h1
          have hb := hall a (by simp)
          rw [hpa] at hb
          cases hb
    | false =>
      rw [List.find?_cons_of_neg _ (ne_true_of_eq_false hpa), ih x]
      constructor
      · rintro ⟨l1, l2, rfl, hx, hall⟩
        refine ⟨a :: l1, l2, rfl, hx, ?_⟩
        intro y hy
        rcases List.mem_cons.mp hy with rfl | hy2
        · exact hpa
        · exact hall y hy2
      · rintro ⟨l1, l2, heq, hx, hall⟩
        cases l1 with
        | nil =>
          injection heq with h1 h2
          subst h1
          rw [hx] at hpa
          cases hpa
        | cons b bs =>
          injection heq with h1 h2
          subst h1
          exact ⟨bs, l2, h2, hx, fun y hy => hall y (List.mem_cons_of_mem _ hy)⟩

/-- C1: when a PR number is resolved, postOrUpdateComment issues exactly one
network-mutating call after the list call: an update with the located
comment's id and the new body when the locator finds one (and no create), a
create with the resolved PR number and the body when it does not (and no
update); in both cases it returns true. -/
theorem C1_reconciler_one_mutating_call (listComments : Int → List Comment)
    (payload : Event) (body : String) (prNumber : Option Int) (p : Int)
    (hres : jsNumOrElse prNumber (payload.pull_request.bind PRRef.number) = some p)
    (hp : p ≠ 0) :
    (∀ c, findExistingComment (listComments p) = some c →
        postOrUpdateComment listComments payload body prNumber =
          (true, [ApiCall.listComments p, ApiCall.updateComment c.id body])) ∧
    (findExistingComment (listComments p) = none →
        postOrUpdateComment listComments payload body prNumber =
          (true, [ApiCall.listComments p, ApiCall.createComment p body])) ∧
    (postOrUpdateComment listComments payload body prNumber).1 = true ∧
    mutCount (postOrUpdateComment listComments payload body prNumber).2 = 1 := by
  have hpost : postOrUpdateComment listComments payload body prNumber =
      match findExistingComment (listComments p) with
      | some c => (true, [ApiCall.listComments p, ApiCall.updateComment c.id body])
      | none => (true, [ApiCall.listComments p, ApiCall.createComment p body]) := by
    unfold postOrUpdateComment
    rw [hres]
    simp [hp]
  refine ⟨?_, ?_, ?_, ?_⟩
  · intro c hc
    rw [hpost, hc]
  · intro hc
    rw [hpost, hc]
  · rw [hpost]
    cases hc : findExistingComment (listComments p) <;> rfl
  · rw [hpost]
    cases hc : findExistingComment (listComments p) <;> rfl

/-- C1 witness: with an empty comment list and PR 5 from the live context,
one create call is issued and true returned. -/
theorem C1_witness :
    postOrUpdateComment (fun _ => []) (Event.mk (some (PRRef.mk (some 5))) none none none)
        "b" none =
      (true, [ApiCall.listComments 5, ApiCall.createComment 5 "b"]) := by
  have h := C1_reconciler_one_mutating_call (fun _ => [])
      (Event.mk (some (PRRef.mk (some 5))) none none none) "b" none 5 rfl (by decide)
  exact h.2.1 rfl

/-- C2: with no explicit PR-number argument and no pull_request.number in the
live payload, postOrUpdateComment issues no API call at all and returns
false. -/
theorem C2_skip_semantics (listComments : Int → List Comment) (payload : Event)
    (body : String)
    (hnone : payload.pull_request.bind PRRef.number = none) :
    postOrUpdateComment listComments payload body none = (false, []) := by
  unfold postOrUpdateComment
  rw [hnone]
  rfl

/-- C2 witness: the empty payload leads to a silent skip with no calls. -/
theorem C2_witness :
    postOrUpdateComment (fun _ => []) (Event.mk none none none none) "body" none
      = (false, []) :=
  C2_skip_semantics (fun _ => []) (Event.mk none none none none) "body" rfl

/-- C3: the locator returns exactly the first comment in list order whose
author account-type is the bot marker and whose body contains the scan header
as an exact substring; it returns none exactly when no comment satisfies both
conditions. -/
theorem C3_locator_first_match (comments : List Comment) :
    (∀ c, findExistingComment comments = some c ↔
      ∃ earlier later, comments = earlier ++ c :: later ∧
        (c.user.type == "Bot" && jsIncludes c.body scanHeader) = true ∧
        ∀ d ∈ earlier, (d.user.type == "Bot" && jsIncludes d.body scanHeader) = false) ∧
    (findExistingComment comments = none ↔
      ∀ d ∈ comments, (d.user.type == "Bot" && jsIncludes d.body scanHeader) = false) := by
  constructor
  · intro c
    exact find?_first_characterization isBotScanComment comments c
  · rw [findExistingComment, List.find?_eq_none]
    constructor
    · intro h d hd
      simpa [isBotScanComment] using h d hd
    · intro h d hd
      simpa [isBotScanComment] using h d hd

/-- C10: a falsy explicit PR-number argument (null or 0) falls back to the
live context's pull_request.number, so an explicit 0 with live PR number n
targets PR n (list call on n, action taken) instead of skipping. -/
theorem C10_falsy_explicit_fallback (listComments : Int → List Comment)
    (payload : Event) (body : String) (n : Int)
    (hn : payload.pull_request.bind PRRef.number = some n) (hnz : n ≠ 0) :
    postOrUpdateComment listComments payload body (some 0) =
      postOrUpdateComment listComments payload body none ∧
    jsNumOrElse (some 0) (payload.pull_request.bind PRRef.number) = some n ∧
    jsNumOrElse none (payload.pull_request.bind PRRef.number) = some n ∧
    (postOrUpdateComment listComments payload body (some 0)).1 = true ∧
    (postOrUpdateComment listComments payload body (some 0)).2.head? =
      some (ApiCall.listComments n) := by
  have h0 : jsNumOrElse (some 0) (payload.pull_request.bind PRRef.number) = some n := by
    rw [hn]
    rfl
  have hpost : postOrUpdateComment listComments payload body (some 0) =
      match findExistingComment (listComments n) with
      | some c => (true, [ApiCall.listComments n, ApiCall.updateComment c.id body])
      | none => (true, [ApiCall.listComments n, ApiCall.createComment n body]) := by
    unfold postOrUpdateComment
    rw [h0]
    simp [hnz]
  refine ⟨rfl, h0, by rw [hn]; rfl, ?_, ?_⟩
  · rw [hpost]
    cases hc : findExistingComment (listComments n) <;> rfl
  · rw [hpost]
    cases hc : findExistingComment (listComments n) <;> rfl

/-- C10 witness: explicit 0 with live PR number 7 updates or creates on PR 7
and reports an action. -/
theorem C10_witness :
    postOrUpdateComment (fun _ => []) (Event.mk (some (PRRef.mk (some 7))) none none none)
        "b" (some 0) =
      postOrUpdateComment (fun _ => [])
        (Event.mk (some (PRRef.mk (some 7))) none none none) "b" none := by
  have h := C10_falsy_explicit_fallback (fun _ => [])
      (Event.mk (some (PRRef.mk (some 7))) none none none) "b" 7 rfl (by decide)
  exact h.1

/-- firstNonEmptySpec peels one candidate by JS truthiness. -/
theorem firstNonEmptySpec_cons (a : Option String) (L : List (Option String)) :
    firstNonEmptySpec (a :: L) = if truthyStr a then a else firstNonEmptySpec L := by
  cases a with
  | none => simp [firstNonEmptySpec, truthyStr]
  | some s =>
    by_cases h : s = ""
    · subst h
      simp [firstNonEmptySpec, truthyStr]
    · simp [firstNonEmptySpec, truthyStr, h]

/-- firstNonEmptySpec never returns the empty string. -/
theorem firstNonEmptySpec_ne_some_empty : ∀ L, firstNonEmptySpec L ≠ some "" := by
  intro L
  induction L with
  | nil => simp [firstNonEmptySpec]
  | cons a rest ih =>
    cases a with
    | none => simpa [firstNonEmptySpec] using ih
    | some s =>
      by_cases h : s = ""
      · subst h
        simpa [firstNonEmptySpec] using ih
      · simp [firstNonEmptySpec, h]

/-- C4: extractCommitSHA returns the first non-empty value among explicit
input, payload.head_commit.id, payload.after and the context sha, in that
order, treating empty strings exactly like missing values, and never returns
the empty string (all-absent yields none). -/
theorem C4_sha_priority (shaInput : Option String) (payload : Event)
    (ctxSha : Option String) :
    extractCommitSHA shaInput payload ctxSha =
      firstNonEmptySpec [shaInput, payload.head_commit.bind HeadCommit.id,
        payload.after, ctxSha] ∧
    extractCommitSHA shaInput payload ctxSha ≠ some "" := by
  have h1 : extractCommitSHA shaInput payload ctxSha =
      firstNonEmptySpec [shaInput, payload.head_commit.bind HeadCommit.id,
        payload.after, ctxSha] := by
    rw [firstNonEmptySpec_cons, firstNonEmptySpec_cons, firstNonEmptySpec_cons,
      firstNonEmptySpec_cons]
    rfl
  refine ⟨h1, ?_⟩
  rw [h1]
  exact firstNonEmptySpec_ne_some_empty _

/-- For the four pull-request-carrying event types the extractor reads
event.pull_request?.number with JS truthiness. -/
theorem extractPRNumber_direct (ev : Event) (en : String)
    (h : en = "pull_request" ∨ en = "pull_request_target" ∨
      en = "workflow_call" ∨ en = "push") :
    extractPRNumber (some ev) en = jsNumOrNull (ev.pull_request.bind PRRef.number) := by
  rcases h with rfl | rfl | rfl | rfl <;> rfl

/-- For workflow_run events the extractor reads the first element of the
pull_requests array. -/
theorem extractPRNumber_workflow_run (ev : Event) :
    extractPRNumber (some ev) "workflow_run" =
      match ev.workflow_run.bind WFRun.pull_requests with
      | some (p :: _) => p.number
      | some [] => none
      | none => none := rfl

/-- For unrecognized event types the extractor returns based on the
pull_request object when present, else on workflow_run.pull_requests. -/
theorem extractPRNumber_fallback (ev : Event) (en : String)
    (h1 : en ≠ "pull_request") (h2 : en ≠ "pull_request_target")
    (h3 : en ≠ "workflow_run") (h4 : en ≠ "workflow_call") (h5 : en ≠ "push") :
    extractPRNumber (some ev) en =
      match ev.pull_request with
      | some pr => jsNumOrNull pr.number
      | none =>
        match ev.workflow_run.bind WFRun.pull_requests with
        | some (p :: _) => p.number
        | some [] => none
        | none => none := by
  simp only [extractPRNumber]
  rw [if_neg (by simp [h1, h2]), if_neg h3, if_neg h4, if_neg h5]

/-- C5 counterexample: on a push event whose pull_request.number is present
with value 0, the extractor returns absent, not the present number, because
of JS truthiness in the source. -/
theorem C5_counterexample :
    (Event.mk (some (PRRef.mk (some 0))) none none none).pull_request.bind
        PRRef.number = some 0 ∧
    extractPRNumber (some (Event.mk (some (PRRef.mk (some 0))) none none none))
        "push" = none := by
  exact ⟨rfl, rfl⟩

/-- C5 amended: for pull_request, pull_request_target, workflow_call and push
events the extractor returns event.pull_request.number when present and
nonzero (JS-truthy) and absent when the number is missing or zero; for
workflow_run it returns the number of the first element of
workflow_run.pull_requests when that sequence is non-empty (later elements
are never returned) and absent otherwise. -/
theorem C5_amended_dispatch (ev : Event) (en : String)
    (h : en = "pull_request" ∨ en = "pull_request_target" ∨
      en = "workflow_call" ∨ en = "push") :
    (∀ n, ev.pull_request.bind PRRef.number = some n → n ≠ 0 →
        extractPRNumber (some ev) en = some n) ∧
    (ev.pull_request.bind PRRef.number = some 0 →
        extractPRNumber (some ev) en = none) ∧
    (ev.pull_request.bind PRRef.number = none →
        extractPRNumber (some ev) en = none) ∧
    (∀ p rest, ev.workflow_run.bind WFRun.pull_requests = some (p :: rest) →
        extractPRNumber (some ev) "workflow_run" = p.number) ∧
    ((ev.workflow_run.bind WFRun.pull_requests = some [] ∨
        ev.workflow_run.bind WFRun.pull_requests = none) →
        extractPRNumber (some ev) "workflow_run" = none) := by
  rw [extractPRNumber_direct ev en h, extractPRNumber_workflow_run ev]
  refine ⟨?_, ?_, ?_, ?_, ?_⟩
  · intro n h1 h2
    rw [h1]
    simp [jsNumOrNull, truthyNum, h2]
  · intro h1
    rw [h1]
    rfl
  · intro h1
    rw [h1]
    rfl
  · intro p rest h1
    rw [h1]
  · rintro (h1 | h1) <;> rw [h1]

/-- C5 witness: a pull_request event with number 42 yields 42. -/
theorem C5_witness :
    extractPRNumber (some (Event.mk (some (PRRef.mk (some 42))) none none none))
        "pull_request" = some 42 := by
  have h := C5_amended_dispatch
      (Event.mk (some (PRRef.mk (some 42))) none none none) "pull_request" (Or.inl rfl)
  exact h.1 42 rfl (by decide)

/-- C6 counterexample: on an unknown event type whose pull_request object is
present but lacks a number, the extractor returns absent even though
workflow_run.pull_requests is non-empty with first number 5; the claimed
fall-through to workflow_run does not happen. -/
theorem C6_counterexample :
    extractPRNumber (some (Event.mk (some (PRRef.mk none))
        (some (WFRun.mk (some [PRRef.mk (some 5)]))) none none)) "deployment"
        = none ∧
    (Event.mk (some (PRRef.mk none)) (some (WFRun.mk (some [PRRef.mk (some 5)])))
        none none).workflow_run.bind WFRun.pull_requests
        = some [PRRef.mk (some 5)] ∧
    (PRRef.mk (some 5)).number = some 5 := by
  refine ⟨?_, rfl, rfl⟩
  rw [extractPRNumber_fallback _ "deployment" (by decide) (by decide) (by decide)
    (by decide) (by decide)]
  rfl

/-- C6 amended: for unknown event types, when the event has a pull_request
object the extractor returns that object's number if truthy and absent
otherwise, never consulting workflow_run; only when the pull_request object
is absent does it fall back to workflow_run.pull_requests, returning the
first element's number when the sequence is present and non-empty, and
absent otherwise. -/
theorem C6_amended_fallback (ev : Event) (en : String)
    (h1 : en ≠ "pull_request") (h2 : en ≠ "pull_request_target")
    (h3 : en ≠ "workflow_run") (h4 : en ≠ "workflow_call") (h5 : en ≠ "push") :
    (∀ pr, ev.pull_request = some pr →
        extractPRNumber (some ev) en = jsNumOrNull pr.number) ∧
    (ev.pull_request = none → ∀ p rest,
        ev.workflow_run.bind WFRun.pull_requests = some (p :: rest) →
        extractPRNumber (some ev) en = p.number) ∧
    (ev.pull_request = none →
        (ev.workflow_run.bind WFRun.pull_requests = some [] ∨
         ev.workflow_run.bind WFRun.pull_requests = none) →
        extractPRNumber (some ev) en = none) := by
  rw [extractPRNumber_fallback ev en h1 h2 h3 h4 h5]
  refine ⟨?_, ?_, ?_⟩
  · intro pr hpr
    rw [hpr]
  · intro hpr p rest hw
    rw [hpr, hw]
  · intro hpr hw
    rcases hw with hw | hw <;> rw [hpr, hw]

/-- C6 witness: an unknown event with no pull_request object and a two-element
pull_requests array yields the first element's number. -/
theorem C6_witness :
    extractPRNumber (some (Event.mk none
        (some (WFRun.mk (some [PRRef.mk (some 7), PRRef.mk (some 9)]))) none none))
        "deployment" = some 7 := by
  have h := C6_amended_fallback (Event.mk none
      (some (WFRun.mk (some [PRRef.mk (some 7), PRRef.mk (some 9)]))) none none)
      "deployment" (by decide) (by decide) (by decide) (by decide) (by decide)
  exact h.2.1 rfl (PRRef.mk (some 7)) [PRRef.mk (some 9)] rfl

/-- C7: extractPRNumber is a total function: a null event yields absent, a
payload with every consumed field missing yields absent for every event-type
string, and every modelled input yields either a number or absent (there is
no error outcome). -/
theorem C7_extractPRNumber_total (en : String) :
    extractPRNumber none en = none ∧
    extractPRNumber (some (Event.mk none none none none)) en = none ∧
    ∀ ev : Event, extractPRNumber (some ev) en = none ∨
      ∃ n, extractPRNumber (some ev) en = some n := by
  refine ⟨rfl, ?_, ?_⟩
  · simp only [extractPRNumber]
    split_ifs <;> rfl
  · intro ev
    cases h : extractPRNumber (some ev) en with
    | none => exact Or.inl rfl
    | some n => exact Or.inr ⟨n, rfl⟩

/-- C8: findPRByCommit returns absent with no API capability; on a transport
error it swallows the failure and returns absent; on an empty result list it
returns absent; on a non-empty result list it returns the number of the
first PR in returned order whose state is open, or of the first result when
none are open. -/
theorem C8_findPRByCommit_selection (api : String → Except String (List PR))
    (sha : String) :
    findPRByCommit none sha = none ∧
    (∀ e, api sha = Except.error e → findPRByCommit (some api) sha = none) ∧
    (api sha = Except.ok [] → findPRByCommit (some api) sha = none) ∧
    (∀ p rest, api sha = Except.ok (p :: rest) →
      ((∃ q earlier later, p :: rest = earlier ++ q :: later ∧ q.state = "open" ∧
          (∀ r ∈ earlier, r.state ≠ "open") ∧
          findPRByCommit (some api) sha = some q.number) ∨
        ((∀ r ∈ p :: rest, r.state ≠ "open") ∧
          findPRByCommit (some api) sha = some p.number))) := by
  refine ⟨rfl, ?_, ?_, ?_⟩
  · intro e he
    simp only [findPRByCommit]
    rw [he]
  · intro he
    simp only [findPRByCommit]
    rw [he]
  · intro p rest he
    have hval : findPRByCommit (some api) sha =
        some (((p :: rest).find? (fun q => q.state == "open")).getD p).number := by
      simp only [findPRByCommit]
      rw [he]
    cases hf : (p :: rest).find? (fun q => q.state == "open") with
    | some q =>
      left
      obtain ⟨l1, l2, heq, hq, hall⟩ :=
        (find?_first_characterization (fun q => q.state == "open") (p :: rest) q).mp hf
      refine ⟨q, l1, l2, heq, by simpa using hq, ?_, ?_⟩
      · intro r hr
        simpa using hall r hr
      · rw [hval, hf]
        rfl
    | none =>
      right
      constructor
      · intro r hr
        have h2 := List.find?_eq_none.mp hf r hr
        simpa using h2
      · rw [hval, hf]
        rfl

/-- C9: resolvePRContext always yields the full result tuple and has no error
outcome: isWorkflowRun reflects exactly the presence of a workflow_run field
in the live context payload, independently of any event file; the resolved
event name is the explicit argument when provided non-empty, else the live
context's event name when non-empty, else the empty string; and when an
event file path is provided (non-empty) and the reader fails, the PR number
is absent while resolution still completes. -/
theorem C9_resolver_graceful (fileReader : String → Except String (Option Event))
    (api : Option (String → Except String (List PR))) (ctx : LiveCtx)
    (eventFilePath eventName shaInput : Option String) :
    (resolvePRContext fileReader api ctx eventFilePath eventName shaInput).isWorkflowRun
        = ctx.payload.workflow_run.isSome ∧
    (∀ s, eventName = some s → s ≠ "" →
      (resolvePRContext fileReader api ctx eventFilePath eventName shaInput).eventName
        = s) ∧
    (∀ t, (eventName = none ∨ eventName = some "") → ctx.eventName = some t →
      t ≠ "" →
      (resolvePRContext fileReader api ctx eventFilePath eventName shaInput).eventName
        = t) ∧
    ((eventName = none ∨ eventName = some "") →
      (ctx.eventName = none ∨ ctx.eventName = some "") →
      (resolvePRContext fileReader api ctx eventFilePath eventName shaInput).eventName
        = "") ∧
    (∀ path e, eventFilePath = some path → path ≠ "" →
      fileReader path = Except.error e →
      (resolvePRContext fileReader api ctx eventFilePath eventName shaInput).prNumber
        = none) := by
  refine ⟨rfl, ?_, ?_, ?_, ?_⟩
  · intro s hs hne
    subst hs
    show resolveEventName (some s) ctx.eventName = s
    simp [resolveEventName, truthyStr, hne]
  · intro t hen hct htne
    have h1 : truthyStr eventName = false := by
      rcases hen with rfl | rfl <;> rfl
    show resolveEventName eventName ctx.eventName = t
    unfold resolveEventName
    rw [h1, hct]
    simp [truthyStr, htne]
  · intro hen hcen
    have h1 : truthyStr eventName = false := by
      rcases hen with rfl | rfl <;> rfl
    have h2 : truthyStr ctx.eventName = false := by
      rcases hcen with h | h <;> rw [h] <;> rfl
    show resolveEventName eventName ctx.eventName = ""
    simp [resolveEventName, h1, h2]
  · intro path e hpath hpne hferr
    subst hpath
    have h1 : truthyStr (some path) = true := by
      simp [truthyStr, hpne]
    show (if truthyStr (some path) then
        match fileReader ((some path).getD "") with
        | Except.error _ => none
        | Except.ok event =>
          extractPRNumber event (resolveEventName eventName ctx.eventName)
      else
        let pr1 := extractPRNumber (some ctx.payload)
          (resolveEventName eventName ctx.eventName)
        let pr2 :=
          if truthyNum pr1 = false ∧
              resolveEventName eventName ctx.eventName = "workflow_call" then
            if truthyNum (ctx.payload.pull_request.bind PRRef.number) then
              ctx.payload.pull_request.bind PRRef.number
            else pr1
          else pr1
        if truthyNum pr2 = false ∧
            (resolveEventName eventName ctx.eventName = "push" ∨
              resolveEventName eventName ctx.eventName = "workflow_call") then
          match extractCommitSHA shaInput ctx.payload ctx.sha with
          | some sha => if sha = "" then pr2 else findPRByCommit api sha
          | none => pr2
        else pr2) = none
    rw [if_pos]
    · rw [show (some path).getD "" = path from rfl, hferr]
    · rw [h1]

end Trivy
